import Mathlib

set_option maxHeartbeats 4000000
set_option maxRecDepth 8000

/-!
A Lean model of the timer wheel data structure of futures-mio
(src/futures-mio/src/timer_wheel.rs), together with proofs about its
operations.

Instants are modelled as natural numbers of nanoseconds since an arbitrary
epoch; the wheel stores its creation instant in the start field.  All u64
arithmetic of the source is modelled on Nat with explicit reductions modulo
2 ^ 64 where the source performs unchecked (wrapping) arithmetic, and with
explicit checks where the source uses checked arithmetic.  Rust panics are
modelled by the Err error type of the Except monad: pastCreation models the
panic of subtracting an instant earlier than the wheel creation, overflow
models the expect on the checked tick arithmetic, and slabPanic models an
indexing panic on a vacant slab entry.  The poll loop of the source is
modelled with an explicit fuel parameter; exhausting the fuel yields the
distinguished outOfFuel error, which no terminating run of the source
corresponds to.
-/

namespace Timer

/-- Failure outcomes of the wheel operations: pastCreation and overflow model
the documented panics of the Rust code, slabPanic models an indexing panic on
a vacant slab entry, and outOfFuel signals exhaustion of the explicit loop
fuel of the model. -/
inductive Err where
  | pastCreation
  | overflow
  | slabPanic
  | outOfFuel
deriving DecidableEq, Repr

/-- One timeout entry: the payload, the absolute deadline (field when, in
nanoseconds), and the prev and next slab indices forming the doubly linked
list of one wheel slot. -/
structure Entry (T : Type) where
  data : T
  when : Nat
  prev : Nat
  next : Nat
deriving DecidableEq, Repr

/-- One wheel slot: the slab index of the head of its linked list (0 is the
EMPTY sentinel) and the cached next timeout of the slot. -/
structure Slot where
  head : Nat
  next_timeout : Option Nat
deriving DecidableEq, Repr

/-- A handle for a scheduled timeout: the deadline it was inserted with and
the slab index of its entry. -/
structure Timeout where
  when : Nat
  slab_idx : Nat
deriving DecidableEq, Repr

/-- The slab backing store.  External index i (with i at least 1) lives at
position i - 1 of entries; index 0 is the EMPTY sentinel.  free is the stack
of vacant external indices; a freed index is pushed on top and reused first,
matching the free list behaviour of the slab crate. -/
structure Slab (T : Type) where
  entries : List (Option (Entry T))
  free : List Nat
deriving DecidableEq, Repr

/-- The EMPTY sentinel index of the linked lists. -/
def EMPTY : Nat := 0

/-- Number of slots of the wheel. -/
def LEN : Nat := 256

/-- Bitmask for reducing a tick to a wheel index. -/
def MASK : Nat := 255

/-- Width of one tick in milliseconds. -/
def TICK_MS : Nat := 100

/-- One more than the largest u64 value. -/
def U64 : Nat := 18446744073709551616

namespace Slab

variable {T : Type}

/-- Look up external index i; index 0 and out of range indices are vacant. -/
def get (s : Slab T) (i : Nat) : Option (Entry T) :=
  if i = 0 then none else s.entries.getD (i - 1) none

/-- Overwrite the entry at external index i (models IndexMut on an occupied
entry; callers check occupancy first). -/
def setE (s : Slab T) (i : Nat) (e : Entry T) : Slab T :=
  ⟨s.entries.set (i - 1) (some e), s.free⟩

/-- Fill a free index with a new entry, popping it off the free stack
(models VacantEntry.insert). -/
def insertNew (s : Slab T) (i : Nat) (e : Entry T) : Slab T :=
  ⟨s.entries.set (i - 1) (some e), s.free.tail⟩

/-- Number of occupied entries. -/
def count (s : Slab T) : Nat :=
  s.entries.foldl (fun n oe => if oe.isSome then n + 1 else n) 0

/-- Grow the slab by amt vacant entries, appending the new indices at the
bottom of the free stack. -/
def grow (s : Slab T) (amt : Nat) : Slab T :=
  ⟨s.entries ++ List.replicate amt none,
   s.free ++ List.range' (s.entries.length + 1) amt⟩

end Slab

/-- The timer wheel state: the 256 slots, the slab of entries, the creation
instant, and the resumable poll cursor (current tick and current slab
index). -/
structure TimerWheel (T : Type) where
  wheel : List Slot
  slab : Slab T
  start : Nat
  cur_wheel_tick : Nat
  cur_slab_idx : Nat
deriving DecidableEq, Repr

/-- Convert an absolute instant to a tick number relative to start.
Mirrors time_to_ticks of the source: panics (pastCreation) if time precedes
start; the seconds-to-milliseconds multiplication and the addition of the
submillisecond part are overflow checked (overflow error); the final
rounding addition of half a tick is unchecked u64 arithmetic and therefore
wraps modulo 2 ^ 64. -/
def time_to_ticks (start time : Nat) : Except Err Nat :=
  if time < start then .error .pastCreation
  else
    let dur := time - start
    let secs := dur / 1000000000
    let subms := dur % 1000000000 / 1000000
    if secs * 1000 < U64 then
      if secs * 1000 + subms < U64 then
        .ok ((secs * 1000 + subms + TICK_MS / 2) % U64 / TICK_MS)
      else .error .overflow
    else .error .overflow

/-- Reduce a tick number (a u64 value) to a wheel slot index; the source
casts to usize and masks with MASK = 255. -/
def ticks_to_wheel_idx (ticks : Nat) : Nat :=
  ticks % 256

namespace TimerWheel

variable {T : Type}

/-- Creates a new timer wheel with 256 empty slots, a slab of capacity 256
starting at index 1, the given creation instant, and the cursor at tick 0
with an EMPTY slab iterator. -/
def new (start : Nat) : TimerWheel T :=
  ⟨List.replicate 256 ⟨EMPTY, none⟩,
   ⟨List.replicate 256 none, List.range' 1 256⟩,
   start, 0, EMPTY⟩

/-- Method wrapper for time_to_ticks relative to the creation instant. -/
def time_to_ticks (w : TimerWheel T) (time : Nat) : Except Err Nat :=
  Timer.time_to_ticks w.start time

/-- The back pointer fix of insert: if the previous head of the slot was
not EMPTY, rewrite its prev pointer to the newly inserted index (panicking
on a vacant index, as IndexMut would). -/
def fixBackPtr (slabA : Slab T) (prev_head newIdx : Nat) : Except Err (Slab T) :=
  if prev_head ≠ EMPTY then
    match slabA.get prev_head with
    | none => .error .slabPanic
    | some pe => .ok (slabA.setE prev_head ⟨pe.data, pe.when, newIdx, pe.next⟩)
  else .ok slabA

/-- Insert a timeout at instant atTime carrying the given payload, mirroring
insert of the source: compute the tick (deferring a tick at or before the
current wheel tick to the next tick), grow the slab if full, link the new
entry at the head of the target slot, fix the back pointer of the previous
head, update the cached next timeout of the slot (clamped to the nominal
start instant of the tick), and return the handle. -/
def insert (w : TimerWheel T) (atTime : Nat) (data : T) :
    Except Err (TimerWheel T × Timeout) :=
  match w.time_to_ticks atTime with
  | .error er => .error er
  | .ok t0 =>
    let tick := if t0 ≤ w.cur_wheel_tick then (w.cur_wheel_tick + 1) % U64 else t0
    let wheel_idx := ticks_to_wheel_idx tick
    let slab1 := if (w.slab.free.head?).isNone then w.slab.grow w.slab.count
                 else w.slab
    match slab1.free.head? with
    | none => .error .slabPanic
    | some newIdx =>
      let slot0 := w.wheel.getD wheel_idx ⟨EMPTY, none⟩
      let prev_head := slot0.head
      let wheelA := w.wheel.set wheel_idx ⟨newIdx, slot0.next_timeout⟩
      let slabA := slab1.insertNew newIdx ⟨data, atTime, EMPTY, prev_head⟩
      match fixBackPtr slabA prev_head newIdx with
      | .error er => .error er
      | .ok slabB =>
        let wheelB :=
          if atTime ≤ (slot0.next_timeout).getD atTime then
            let actual := w.start + tick % 4294967296 * 100000000
            wheelA.set wheel_idx ⟨newIdx, some (max actual atTime)⟩
          else wheelA
        .ok ({ w with wheel := wheelB, slab := slabB }, ⟨atTime, newIdx⟩)

/-- The list unlink step of remove_slab: when the removed entry had no
predecessor, rewrite the head of the slot computed from the NATURAL tick of
the stored deadline (this is the slot the source repairs, even for an entry
that was deferred into a different slot); otherwise rewrite the next pointer
of the predecessor. -/
def unlinkHead (w1 : TimerWheel T) (entry : Entry T) : Except Err (TimerWheel T) :=
  if entry.prev = EMPTY then
    match w1.time_to_ticks entry.when with
    | .error er => .error er
    | .ok t =>
      let idx := ticks_to_wheel_idx t
      .ok { w1 with
            wheel := w1.wheel.set idx
              ⟨entry.next, (w1.wheel.getD idx ⟨EMPTY, none⟩).next_timeout⟩ }
  else
    match w1.slab.get entry.prev with
    | none => .error .slabPanic
    | some pe =>
      .ok { w1 with
            slab := w1.slab.setE entry.prev ⟨pe.data, pe.when, pe.prev, entry.next⟩ }

/-- The successor fix of remove_slab: when the removed entry had a
successor, rewrite the prev pointer of that successor. -/
def fixNextPtr (w2 : TimerWheel T) (entry : Entry T) : Except Err (TimerWheel T) :=
  if entry.next ≠ EMPTY then
    match w2.slab.get entry.next with
    | none => .error .slabPanic
    | some ne =>
      .ok { w2 with
            slab := w2.slab.setE entry.next ⟨ne.data, ne.when, entry.prev, ne.next⟩ }
  else .ok w2

/-- Unlink and free the entry at the given slab index, mirroring remove_slab
of the source: free the slab entry, unlink it from the linked list, and fix
the back pointer of its successor. -/
def remove_slab (w : TimerWheel T) (slab_idx : Nat) :
    Except Err (TimerWheel T × Option (Entry T)) :=
  match w.slab.get slab_idx with
  | none => .ok (w, none)
  | some entry =>
    let w1 : TimerWheel T :=
      { w with slab := ⟨w.slab.entries.set (slab_idx - 1) none, slab_idx :: w.slab.free⟩ }
    match unlinkHead w1 entry with
    | .error er => .error er
    | .ok w2 =>
      match fixNextPtr w2 entry with
      | .error er => .error er
      | .ok w3 => .ok (w3, some entry)

/-- Cancel the timeout referenced by a handle, mirroring cancel of the
source: the entry must be present and its stored deadline must equal the
deadline of the handle, otherwise nothing happens and none is returned. -/
def cancel (w : TimerWheel T) (t : Timeout) : Except Err (TimerWheel T × Option T) :=
  match w.slab.get t.slab_idx with
  | some e =>
    if e.when = t.when then
      match w.remove_slab t.slab_idx with
      | .error er => .error er
      | .ok (w1, oe) => .ok (w1, oe.map (fun e2 => e2.data))
    else .ok (w, none)
  | none => .ok (w, none)

/-- One fuelled run of the poll loop of the source: while the current wheel
tick has not passed the target tick, either advance to the next tick (when
the slab iterator is EMPTY), or visit the entry under the iterator, clearing
the cached slot timeout when starting a slot, firing the entry if its tick
has passed (returning its payload), and otherwise tightening the cached
timeout of the slot and continuing. -/
def pollLoop (now target : Nat) : Nat → TimerWheel T → Except Err (TimerWheel T × Option T)
  | 0, w =>
    if w.cur_wheel_tick > target then .ok (w, none) else .error .outOfFuel
  | fuel + 1, w =>
    if w.cur_wheel_tick > target then .ok (w, none)
    else
      let head := w.cur_slab_idx
      if head = EMPTY then
        let cur2 := (w.cur_wheel_tick + 1) % U64
        let idx2 := ticks_to_wheel_idx cur2
        pollLoop now target fuel
          { w with cur_wheel_tick := cur2,
                   cur_slab_idx := (w.wheel.getD idx2 ⟨EMPTY, none⟩).head }
      else
        let idx := ticks_to_wheel_idx w.cur_wheel_tick
        let slotC := w.wheel.getD idx ⟨EMPTY, none⟩
        let w1 := if head = slotC.head then
                    { w with wheel := w.wheel.set idx ⟨slotC.head, none⟩ }
                  else w
        match w1.slab.get head with
        | none => .error .slabPanic
        | some e =>
          let w2 := { w1 with cur_slab_idx := e.next }
          match w2.time_to_ticks e.when, w2.time_to_ticks now with
          | .error er, _ => .error er
          | .ok _, .error er => .error er
          | .ok tH, .ok tA =>
            if tH ≤ tA then
              match w2.remove_slab head with
              | .error er => .error er
              | .ok (w3, oe) => .ok (w3, oe.map (fun e2 => e2.data))
            else
              let slotD := w2.wheel.getD idx ⟨EMPTY, none⟩
              let nxt := (slotD.next_timeout).getD e.when
              let w3 := if e.when ≤ nxt then
                          { w2 with wheel := w2.wheel.set idx ⟨slotD.head, some e.when⟩ }
                        else w2
              pollLoop now target fuel w3

/-- Poll the wheel at instant now with the given fuel, mirroring poll of the
source: convert now to the target tick and run the loop. -/
def poll (fuel : Nat) (w : TimerWheel T) (now : Nat) :
    Except Err (TimerWheel T × Option T) :=
  match w.time_to_ticks now with
  | .error er => .error er
  | .ok wheel_tick => pollLoop now wheel_tick fuel w

/-- The fold step of next_timeout: combine the accumulator with the cached
timeout of one slot, keeping the smaller value. -/
def foldStep (prev : Option Nat) (slot : Slot) : Option Nat :=
  match prev, slot.next_timeout with
  | none, cur => cur
  | some time, none => some time
  | some a, some b => some (Nat.min a b)

/-- Fold all cached slot timeouts to the smallest present value and add half
a tick width (50 milliseconds), mirroring next_timeout of the source. -/
def next_timeout (w : TimerWheel T) : Option Nat :=
  (w.wheel.foldl foldStep none).map (fun time => time + 50000000)

end TimerWheel

/-- The list of slab indices reachable from index i along next pointers,
stopping at the EMPTY sentinel, at a vacant index, or when the fuel runs
out. -/
def chainIdxs (w : TimerWheel T) : Nat → Nat → List Nat
  | 0, _ => []
  | fuel + 1, i =>
    if i = EMPTY then []
    else
      match w.slab.get i with
      | none => []
      | some e => i :: chainIdxs w fuel e.next

/-- Extract the resulting wheel state of an operation, with a default for
the error case (used only to name the states of concrete traces, whose
operations all succeed). -/
def stateOf {T β : Type} (r : Except Err (TimerWheel T × β)) (d : TimerWheel T) :
    TimerWheel T :=
  match r with
  | .ok (w, _) => w
  | .error _ => d

/-- Extract the payload part of an operation result. -/
def payloadOf {T β : Type} (r : Except Err (TimerWheel T × β)) : Except Err β :=
  match r with
  | .ok (_, b) => .ok b
  | .error er => .error er

/-- Decides, for one slab position, that it does not hold a live entry
carrying payload p whose tick has been reached at instant now: either it is
vacant, or it holds a different payload, or its deadline maps to a tick
strictly after the tick of now. -/
def notDueEntry {T : Type} [DecidableEq T] (start now : Nat) (p : T)
    (oe : Option (Entry T)) : Bool :=
  match oe with
  | none => true
  | some e =>
    if e.data = p then
      match Timer.time_to_ticks start e.when, Timer.time_to_ticks start now with
      | .ok te, .ok ta => decide (ta < te)
      | _, _ => true
    else true

/-- Decides that no slab entry of the wheel carries payload p with a tick
at or before the tick of now. -/
def noneDue {T : Type} [DecidableEq T] (w : TimerWheel T) (now : Nat) (p : T) : Bool :=
  w.slab.entries.all (notDueEntry w.start now p)

end Timer

deriving instance DecidableEq for Except

namespace Timer

/-! ### Concrete trace states

The following states are the concrete executions used by the claim
theorems.  All instants are in nanoseconds relative to a wheel created at
instant 0; a tick is 100 milliseconds. -/

/-- C5 trace, step 0: a fresh wheel. -/
def s0c5 : TimerWheel String := TimerWheel.new 0

/-- C5 trace: insert payload p1 at 100 ms (tick 1, slab index 1). -/
def r1c5 := s0c5.insert 100000000 "p1"

/-- C5 trace state after the first insert. -/
def s1c5 : TimerWheel String := stateOf r1c5 s0c5

/-- C5 trace: cancel the handle of p1 (deadline 100 ms, index 1). -/
def r2c5 := s1c5.cancel ⟨100000000, 1⟩

/-- C5 trace state after the first cancel. -/
def s2c5 : TimerWheel String := stateOf r2c5 s0c5

/-- C5 trace: insert an unrelated payload p2 at the same deadline; the slab
reuses index 1. -/
def r3c5 := s2c5.insert 100000000 "p2"

/-- C5 trace state after the second insert. -/
def s3c5 : TimerWheel String := stateOf r3c5 s0c5

/-- C5 trace: cancel the stale handle of p1 again. -/
def r4c5 := s3c5.cancel ⟨100000000, 1⟩

/-- C5 trace state after the second cancel. -/
def s4c5 : TimerWheel String := stateOf r4c5 s0c5

/-- C1 and C2 trace, step 0: a fresh wheel. -/
def s0c1 : TimerWheel Nat := TimerWheel.new 0

/-- C1 and C2 trace: insert payload 1 at 25.7 s (tick 257, slot 1). -/
def r1c1 := s0c1.insert 25700000000 1

/-- C1 and C2 trace state after the insert of payload 1. -/
def s1c1 : TimerWheel Nat := stateOf r1c1 s0c1

/-- C1 and C2 trace: poll at 100 ms; nothing fires, the cursor advances to
tick 2. -/
def r2c1 := s1c1.poll 10 100000000

/-- C1 and C2 trace state after the first poll. -/
def s2c1 : TimerWheel Nat := stateOf r2c1 s0c1

/-- C1 and C2 trace: insert payload 2 at 100 ms; its natural tick 1 is at or
before the current tick 2, so it is deferred to tick 3 (slot 3). -/
def r3c1 := s2c1.insert 100000000 2

/-- C1 and C2 trace state after the deferred insert. -/
def s3c1 : TimerWheel Nat := stateOf r3c1 s0c1

/-- C1 and C2 trace: poll at 300 ms; payload 2 fires, and its removal
rewrites the head of slot 1 (the natural slot of its deadline) instead of
slot 3, orphaning payload 1. -/
def r4c1 := s3c1.poll 10 300000000

/-- C1 and C2 trace state after the corrupting poll. -/
def s4c1 : TimerWheel Nat := stateOf r4c1 s0c1

/-- C1 trace: poll at 25.7 s, at the deadline of payload 1; it returns
nothing although payload 1 is due and live. -/
def r5c1 := s4c1.poll 600 25700000000

/-- C1 trace state after the empty poll at the deadline. -/
def s5c1 : TimerWheel Nat := stateOf r5c1 s0c1

/-- C1 trace: poll at 25.7 s again; still nothing. -/
def r6c1 := s5c1.poll 600 25700000000

/-- C4 trace, step 0: a fresh wheel. -/
def s0c4 : TimerWheel Nat := TimerWheel.new 0

/-- C4 trace: poll at 100 ms on the empty wheel; the cursor advances to
tick 2. -/
def r1c4 := s0c4.poll 10 100000000

/-- C4 trace state after the first poll. -/
def s1c4 : TimerWheel Nat := stateOf r1c4 s0c4

/-- C4 trace: insert payload 1 at 100 ms (natural tick 1, at or before the
current tick 2), deferred to tick 3 (slot 3, slab index 1). -/
def r2c4 := s1c4.insert 100000000 1

/-- C4 trace state after the first deferred insert. -/
def s2c4 : TimerWheel Nat := stateOf r2c4 s0c4

/-- C4 trace: insert payload 2 at 200 ms (natural tick 2), also deferred to
tick 3; it becomes the head of slot 3 in front of payload 1. -/
def r3c4 := s2c4.insert 200000000 2

/-- C4 trace state after the second deferred insert. -/
def s3c4 : TimerWheel Nat := stateOf r3c4 s0c4

/-- C4 trace: cancel payload 2; its removal rewrites the head of slot 2
(the natural slot of its deadline) instead of slot 3, leaving the head of
slot 3 pointing at the freed index. -/
def r4c4 := s3c4.cancel ⟨200000000, 2⟩

/-- C4 trace state after the corrupting cancel. -/
def s4c4 : TimerWheel Nat := stateOf r4c4 s0c4

/-- C4 trace: poll at 300 ms; the walk of slot 3 dereferences the freed
index and panics. -/
def r5c4 := s4c4.poll 600 300000000

/-- C4 trace: poll at 10 s; same panic, the deferred payload 1 is never
returned. -/
def r6c4 := s4c4.poll 600 10000000000

/-- C6 trace, step 0: a fresh wheel. -/
def s0c6 : TimerWheel Nat := TimerWheel.new 0

/-- C6 trace: insert payload 1 at 10.0 s (tick 100, slot 100). -/
def r1c6 := s0c6.insert 10000000000 1

/-- C6 trace state after the first insert. -/
def s1c6 : TimerWheel Nat := stateOf r1c6 s0c6

/-- C6 trace: insert payload 2 at 10.01 s, same tick and slot; the slot
cache keeps the smaller value 10.0 s. -/
def r2c6 := s1c6.insert 10010000000 2

/-- C6 trace state after the second insert. -/
def s2c6 : TimerWheel Nat := stateOf r2c6 s0c6

/-- C6 trace: cancel payload 1, the entry realizing the cached minimum; the
cache is not repaired. -/
def r3c6 := s2c6.cancel ⟨10000000000, 1⟩

/-- C6 trace state after the cancel: slot 100 caches 10.0 s although its
only live entry has deadline 10.01 s. -/
def s3c6 : TimerWheel Nat := stateOf r3c6 s0c6

/-- C7 trace, step 0: a fresh wheel created at T0 = 0. -/
def s0c7 : TimerWheel String := TimerWheel.new 0

/-- C7 trace: insert payload a at T0 + 50 ms (tick 1). -/
def r1c7 := s0c7.insert 50000000 "a"

/-- C7 trace state after inserting a. -/
def s1c7 : TimerWheel String := stateOf r1c7 s0c7

/-- C7 trace: drain at T0 + 150 ms (tick 2); returns a. -/
def r2c7 := s1c7.poll 10 150000000

/-- C7 trace state after the first drain. -/
def s2c7 : TimerWheel String := stateOf r2c7 s0c7

/-- C7 trace: drain at T0 + 150 ms again; returns nothing and leaves the
cursor at tick 3. -/
def r3c7 := s2c7.poll 10 150000000

/-- C7 trace state after the second drain. -/
def s3c7 : TimerWheel String := stateOf r3c7 s0c7

/-- C7 trace: insert payload b at T0 + 10 ms; its natural tick 0 is at or
before the current tick 3, so it is deferred to tick 4. -/
def r4c7 := s3c7.insert 10000000 "b"

/-- C7 trace state after inserting b. -/
def s4c7 : TimerWheel String := stateOf r4c7 s0c7

/-- C7 trace: insert payload c at T0 + 10 ms; also deferred to tick 4. -/
def r5c7 := s4c7.insert 10000000 "c"

/-- C7 trace state after inserting c. -/
def s5c7 : TimerWheel String := stateOf r5c7 s0c7

/-- C7 trace: drain at T0 + 200 ms (tick 2, behind the cursor tick 3);
returns nothing although b and c are live and their deadlines have long
passed. -/
def r6c7 := s5c7.poll 10 200000000

/-- C7 trace state after the third drain. -/
def s6c7 : TimerWheel String := stateOf r6c7 s0c7

/-- C7 trace: drain at T0 + 200 ms again; returns nothing. -/
def r7c7 := s6c7.poll 10 200000000

/-- C3 counterexample state 0: a fresh wheel. -/
def s0c3 : TimerWheel Nat := TimerWheel.new 0

/-- C3 counterexample: the wheel after inserting payload 7 at deadline
50 ms; the slot cache is clamped up to the nominal tick instant 100 ms, so
next_timeout answers 150 ms, after the only live deadline. -/
def s1c3 : TimerWheel Nat := stateOf (s0c3.insert 50000000 7) s0c3

/-- A state used to witness the C9 theorem: one live entry carrying payload
7 with deadline 1 s (tick 10) in slot 10. -/
def w9 : TimerWheel Nat :=
  ⟨(List.replicate 256 (⟨EMPTY, none⟩ : Slot)).set 10 ⟨1, some 1000000000⟩,
   ⟨(List.replicate 256 (none : Option (Entry Nat))).set 0 (some ⟨7, 1000000000, 0, 0⟩),
    List.range' 2 255⟩,
   0, 0, EMPTY⟩

/-- The state w9 after polling at 100 ms: the cursor advances to tick 2 and
nothing fires. -/
def w9after : TimerWheel Nat :=
  { w9 with cur_wheel_tick := 2 }

/-- A state used to witness the C10 theorem: a fresh wheel whose cursor has
already advanced to tick 5. -/
def w10 : TimerWheel Nat :=
  { (TimerWheel.new 0 : TimerWheel Nat) with cur_wheel_tick := 5 }

/-! ### Helper lemmas -/

/-- The milliseconds computation of time_to_ticks: seconds times 1000 plus
submillisecond part equals total duration divided down to milliseconds. -/
theorem ms_eq (dur : Nat) :
    dur / 1000000000 * 1000 + dur % 1000000000 / 1000000 = dur / 1000000 := by
  omega

/-- Evaluation of time_to_ticks when nothing overflows: the result is the
elapsed milliseconds plus half a tick, divided by the tick width. -/
theorem ttt_ok (start time : Nat) (h1 : start ≤ time)
    (h2 : (time - start) / 1000000 + 50 < U64) :
    Timer.time_to_ticks start time = .ok (((time - start) / 1000000 + 50) / 100) := by
  have hms := ms_eq (time - start)
  simp only [U64] at h2
  simp only [Timer.time_to_ticks, U64, TICK_MS]
  rw [if_neg (by omega), if_pos (by omega), if_pos (by omega)]
  congr 1
  omega

/-- getD of a set list at the written position. -/
theorem lgetD_set_self {α : Type} (l : List α) (i : Nat) (a d : α) (h : i < l.length) :
    (l.set i a).getD i d = a := by
  induction l generalizing i with
  | nil => simp at h
  | cons x xs ih =>
    cases i with
    | zero => rfl
    | succ j =>
      rw [List.set_cons_succ, List.getD_cons_succ]
      exact ih j (by simpa using h)

/-- getD of a set list away from the written position. -/
theorem lgetD_set_ne {α : Type} (l : List α) (i j : Nat) (a d : α) (h : i ≠ j) :
    (l.set i a).getD j d = l.getD j d := by
  induction l generalizing i j with
  | nil => rfl
  | cons x xs ih =>
    cases i with
    | zero =>
      cases j with
      | zero => exact absurd rfl h
      | succ k => rfl
    | succ i2 =>
      cases j with
      | zero => rfl
      | succ k =>
        rw [List.set_cons_succ, List.getD_cons_succ, List.getD_cons_succ]
        exact ih i2 k (by omega)

/-- Setting a position past the end of a list leaves it unchanged. -/
theorem lset_oob {α : Type} (l : List α) (i : Nat) (a : α) (h : l.length ≤ i) :
    l.set i a = l := by
  induction l generalizing i with
  | nil => rfl
  | cons x xs ih =>
    cases i with
    | zero => simp at h
    | succ j => rw [List.set_cons_succ, ih j (by simpa using h)]

/-- getD of a replicate list inside the range. -/
theorem lgetD_replicate {α : Type} (n i : Nat) (a d : α) (h : i < n) :
    (List.replicate n a).getD i d = a := by
  induction n generalizing i with
  | zero => omega
  | succ k ih =>
    rw [List.replicate_succ]
    cases i with
    | zero => rfl
    | succ j =>
      rw [List.getD_cons_succ]
      exact ih j (by omega)

/-- An element produced by getD is a member of the list or the default. -/
theorem lgetD_mem_or {α : Type} (l : List α) (j : Nat) (d : α) :
    l.getD j d ∈ l ∨ l.getD j d = d := by
  induction l generalizing j with
  | nil => right; cases j <;> rfl
  | cons x xs ih =>
    cases j with
    | zero => left; simp
    | succ k =>
      rw [List.getD_cons_succ]
      rcases ih k with h | h
      · left; exact List.mem_cons_of_mem x h
      · right; exact h

/-- Rewriting a slot while keeping its cached timeout preserves the list of
cached timeouts. -/
theorem map_nt_set (l : List Slot) (i hd : Nat) :
    (l.set i ⟨hd, (l.getD i ⟨EMPTY, none⟩).next_timeout⟩).map Slot.next_timeout
      = l.map Slot.next_timeout := by
  induction l generalizing i with
  | nil => rfl
  | cons x xs ih =>
    cases i with
    | zero => rfl
    | succ j =>
      rw [List.set_cons_succ, List.map_cons, List.map_cons, List.getD_cons_succ, ih j]

/-- The fold step of next_timeout ignores slots with no cached timeout. -/
theorem foldStep_none (a : Option Nat) (s : Slot) (h : s.next_timeout = none) :
    TimerWheel.foldStep a s = a := by
  cases a <;> simp [TimerWheel.foldStep, h]

/-- Folding over slots with no cached timeouts returns the accumulator. -/
theorem foldl_nt_allnone (l : List Slot) (a : Option Nat)
    (h : ∀ s ∈ l, s.next_timeout = none) :
    l.foldl TimerWheel.foldStep a = a := by
  induction l generalizing a with
  | nil => rfl
  | cons x xs ih =>
    rw [List.foldl_cons, foldStep_none a x (h x (by simp))]
    exact ih a (fun s hs => h s (List.mem_cons_of_mem x hs))

/-- Folding over a fresh wheel with exactly one cached timeout yields that
value. -/
theorem foldl_nt_single (n i hd m : Nat) (hi : i < n) :
    ((List.replicate n (⟨EMPTY, none⟩ : Slot)).set i ⟨hd, some m⟩).foldl
      TimerWheel.foldStep none = some m := by
  induction n generalizing i with
  | zero => omega
  | succ k ih =>
    rw [List.replicate_succ]
    cases i with
    | zero =>
      rw [List.set_cons_zero, List.foldl_cons]
      have hstep : TimerWheel.foldStep none ⟨hd, some m⟩ = some m := rfl
      rw [hstep]
      exact foldl_nt_allnone _ _
        (fun s hs => by rw [List.eq_of_mem_replicate hs])
    | succ j =>
      rw [List.set_cons_succ, List.foldl_cons]
      have hstep : TimerWheel.foldStep none ⟨EMPTY, none⟩ = none := rfl
      rw [hstep]
      exact ih j (by omega)

/-- The entry returned by a successful remove_slab is exactly the occupant
of the removed index. -/
theorem remove_slab_payload {T : Type} (w : TimerWheel T) (i : Nat)
    (w2 : TimerWheel T) (oe : Option (Entry T))
    (h : w.remove_slab i = .ok (w2, oe)) : oe = w.slab.get i := by
  unfold TimerWheel.remove_slab at h
  split at h
  next hg =>
    simp only [Except.ok.injEq, Prod.mk.injEq] at h
    rw [hg]
    exact h.2.symm
  next entry hg =>
    rw [hg]
    simp only [] at h
    split at h
    · exact absurd h (by simp)
    · split at h
      · exact absurd h (by simp)
      · simp only [Except.ok.injEq, Prod.mk.injEq] at h
        exact h.2.symm

/-- An occupant found by Slab.get is a member of the entries list. -/
theorem get_mem_entries {T : Type} (s : Slab T) (i : Nat) (e : Entry T)
    (h : s.get i = some e) : some e ∈ s.entries := by
  unfold Slab.get at h
  by_cases hi : i = 0
  · rw [if_pos hi] at h; cases h
  · rw [if_neg hi] at h
    rcases lgetD_mem_or s.entries (i - 1) none with hm | hd
    · rwa [h] at hm
    · rw [h] at hd; cases hd

/-! ### Claim theorems on concrete traces -/

/-- C1: the claim states that a payload inserted at deadline D at or after
creation is returned exactly once by the drain calls with now at or after D.
This theorem evaluates the code at the failing trace: payload 1 was inserted
at deadline 25.7 s, no drain before 25.7 s returned it, and the drains at
25.7 s return nothing, while the entry of payload 1 is still sitting live in
the slab.  The removal of the deferred payload 2 unlinked from slot 1 (the
natural slot of its deadline) instead of slot 3, erasing the head pointer to
payload 1. -/
theorem c1_insert_lost_after_deferred_fire :
    payloadOf r2c1 = .ok none ∧
    payloadOf r4c1 = .ok (some 2) ∧
    payloadOf r5c1 = .ok none ∧
    payloadOf r6c1 = .ok none ∧
    s5c1.slab.get 1 = some ⟨1, 25700000000, EMPTY, EMPTY⟩ :=
  ⟨rfl, rfl, rfl, rfl, rfl⟩

/-- C2: the claim states that every live entry is reachable from exactly one
slot list, in particular that removal unlinks an entry from the list of the
slot it actually lives in, including deferred entries.  This theorem
evaluates the code at the failing trace: after the deferred payload 2 fired,
the live entry of payload 1 (slab index 1) is reachable from no slot head at
all, because the removal of payload 2 rewrote the head of slot 1 rather than
slot 3. -/
theorem c2_live_entry_unreachable :
    s4c1.slab.get 1 = some ⟨1, 25700000000, EMPTY, EMPTY⟩ ∧
    ((List.range 256).all
      (fun s => !((chainIdxs s4c1 300 ((s4c1.wheel.getD s ⟨EMPTY, none⟩).head)).contains 1)))
      = true :=
  ⟨rfl, rfl⟩

/-- C4: the claim states that an insert whose tick is at or before the
current drain tick is deferred to the next tick and is returned by some
later drain rather than dropped.  This theorem evaluates the code at the
failing trace: payload 1 was inserted with natural tick 1 while the cursor
was at tick 2 and was deferred; after its deferred sibling payload 2 was
cancelled, the head of the deferred slot dangles, every later drain that
could reach payload 1 panics on the freed index, and payload 1 is never
returned although it is still live in the slab. -/
theorem c4_deferred_entry_never_fires :
    payloadOf r4c4 = .ok (some 2) ∧
    s4c4.slab.get 1 = some ⟨1, 100000000, EMPTY, EMPTY⟩ ∧
    r5c4 = .error .slabPanic ∧
    r6c4 = .error .slabPanic :=
  ⟨rfl, rfl, rfl, rfl⟩

/-- C5 counterexample: the claim states that cancelling a handle whose entry
already fired or was cancelled returns an absent result even when the arena
index was reused by an unrelated later insertion.  In this trace the index
is reused at the same deadline: the stale handle of p1 passes the deadline
token check and the second cancel removes and returns the payload p2 of the
new occupant instead of an absent result. -/
theorem c5_counterexample :
    payloadOf r2c5 = .ok (some "p1") ∧
    payloadOf r4c5 = .ok (some "p2") ∧
    payloadOf r4c5 ≠ .ok none ∧
    s4c5.slab.get 1 = none :=
  ⟨rfl, rfl, by decide, rfl⟩

/-- C6 counterexample: the claim states that a present slot cache is never
smaller than the true minimum deadline of the live entries of that slot.
After cancelling the minimal entry of slot 100, the cache still holds
10.0 s while the only remaining live entry of the slot has deadline
10.01 s, so the cache is smaller than the true minimum. -/
theorem c6_counterexample :
    (s3c6.wheel.getD 100 ⟨EMPTY, none⟩).next_timeout = some 10000000000 ∧
    chainIdxs s3c6 300 ((s3c6.wheel.getD 100 ⟨EMPTY, none⟩).head) = [2] ∧
    s3c6.slab.get 2 = some ⟨2, 10010000000, EMPTY, EMPTY⟩ ∧
    10000000000 < 10010000000 :=
  ⟨rfl, rfl, rfl, by decide⟩

/-- C7 counterexample: the claim states that after the two inserts at
T0 + 10 ms the repeated drains at T0 + 200 ms return b and c in some order.
The trace shows the first such drain returns an absent result while b and c
are both still live: they were deferred to tick 4, beyond the target tick 2
of T0 + 200 ms. -/
theorem c7_counterexample :
    payloadOf r6c7 = .ok none ∧
    payloadOf r6c7 ≠ .ok (some "b") ∧
    payloadOf r6c7 ≠ .ok (some "c") ∧
    s5c7.slab.get 1 = some ⟨"b", 10000000, 2, EMPTY⟩ ∧
    s5c7.slab.get 2 = some ⟨"c", 10000000, EMPTY, 1⟩ :=
  ⟨rfl, by decide, by decide, rfl, rfl⟩

/-- C7 amended: in the concrete scenario, drain at T0 + 150 ms returns a and
then an absent result, and after inserting b and c at T0 + 10 ms the
repeated drains at T0 + 200 ms return an absent result (b and c were
deferred to tick 4, whose nominal instant T0 + 400 ms is past the drain
target tick), not b and c. -/
theorem c7_amended :
    payloadOf r2c7 = .ok (some "a") ∧
    payloadOf r3c7 = .ok none ∧
    payloadOf r6c7 = .ok none ∧
    payloadOf r7c7 = .ok none :=
  ⟨rfl, rfl, rfl, rfl⟩

/-- C3 counterexample: the claim states that next_timeout never exceeds the
earliest live deadline.  After a single insert at deadline 50 ms into a
fresh wheel the only live deadline is 50 ms but next_timeout answers
150 ms. -/
theorem c3_counterexample :
    s1c3.next_timeout = some 150000000 ∧
    chainIdxs s1c3 300 ((s1c3.wheel.getD 1 ⟨EMPTY, none⟩).head) = [1] ∧
    s1c3.slab.get 1 = some ⟨7, 50000000, EMPTY, EMPTY⟩ ∧
    ¬ (150000000 ≤ 50000000) :=
  ⟨rfl, rfl, rfl, by decide⟩

/-- C8 counterexample: the claim states that every conversion exceeding the
u64 range aborts with an overflow, including the final rounding addition of
half a tick.  At an elapsed time of 2 ^ 64 - 1 milliseconds the rounding
addition exceeds the u64 range, yet the conversion silently wraps modulo
2 ^ 64 and returns tick 0 instead of aborting. -/
theorem c8_counterexample :
    Timer.time_to_ticks 0 18446744073709551615000000 = .ok 0 ∧
    Timer.time_to_ticks 0 18446744073709551615000000 ≠ .error .overflow ∧
    U64 ≤ 18446744073709551615000000 / 1000000 + 50 :=
  ⟨rfl, by decide, by decide⟩

/-! ### Structural lemmas about the operations -/

/-- A successful unlinkHead leaves the cached timeout of every slot
unchanged. -/
theorem unlinkHead_nt {T : Type} (w1 w2 : TimerWheel T) (entry : Entry T)
    (h : w1.unlinkHead entry = .ok w2) :
    w2.wheel.map Slot.next_timeout = w1.wheel.map Slot.next_timeout := by
  unfold TimerWheel.unlinkHead at h
  split at h
  · split at h
    · exact absurd h (by simp)
    · simp only [Except.ok.injEq] at h
      subst h
      exact map_nt_set w1.wheel _ entry.next
  · split at h
    · exact absurd h (by simp)
    · simp only [Except.ok.injEq] at h
      subst h
      rfl

/-- A successful fixNextPtr leaves the wheel slots unchanged. -/
theorem fixNextPtr_wheel {T : Type} (w2 w3 : TimerWheel T) (entry : Entry T)
    (h : w2.fixNextPtr entry = .ok w3) : w3.wheel = w2.wheel := by
  unfold TimerWheel.fixNextPtr at h
  split at h
  · split at h
    · exact absurd h (by simp)
    · simp only [Except.ok.injEq] at h
      subst h
      rfl
  · simp only [Except.ok.injEq] at h
    subst h
    rfl

/-- Any payload returned by the poll loop belongs to an entry of the slab of
the starting state whose deadline tick is at or before the tick of the poll
instant. -/
theorem pollLoop_fired {T : Type} (now target : Nat) :
    ∀ (fuel : Nat) (w w2 : TimerWheel T) (d : T),
      TimerWheel.pollLoop now target fuel w = .ok (w2, some d) →
      ∃ i e, w.slab.get i = some e ∧ e.data = d ∧
        ∃ te ta, Timer.time_to_ticks w.start e.when = .ok te ∧
                 Timer.time_to_ticks w.start now = .ok ta ∧ te ≤ ta := by
  intro fuel
  induction fuel with
  | zero =>
    intro w w2 d h
    unfold TimerWheel.pollLoop at h
    split at h
    · exact absurd h (by simp)
    · exact absurd h (by simp)
  | succ fuel ih =>
    intro w w2 d h
    unfold TimerWheel.pollLoop at h
    split at h
    · exact absurd h (by simp)
    · simp only [] at h
      split at h
      · have hres := ih _ w2 d h
        exact hres
      · by_cases hclr : w.cur_slab_idx
            = (w.wheel.getD (ticks_to_wheel_idx w.cur_wheel_tick) ⟨EMPTY, none⟩).head
        · rw [if_pos hclr] at h
          split at h
          · exact absurd h (by simp)
          · next e heqGet =>
              split at h
              · exact absurd h (by simp)
              · exact absurd h (by simp)
              · next tH tA heqTH heqTA =>
                  split at h
                  · next hle =>
                      split at h
                      · exact absurd h (by simp)
                      · next w3 oe heqRem =>
                          simp only [Except.ok.injEq, Prod.mk.injEq] at h
                          obtain ⟨-, hmap⟩ := h
                          cases oe with
                          | none => simp at hmap
                          | some e2 =>
                            simp only [Option.map_some', Option.some.injEq] at hmap
                            have hoe := remove_slab_payload _ _ _ _ heqRem
                            have he2 : e2 = e := Option.some.inj (hoe.trans heqGet)
                            refine ⟨w.cur_slab_idx, e, heqGet, ?_, tH, tA, heqTH, heqTA, hle⟩
                            rw [← hmap, he2]
                  · next hle =>
                      split at h <;> (have hres := ih _ w2 d h; exact hres)
        · rw [if_neg hclr] at h
          split at h
          · exact absurd h (by simp)
          · next e heqGet =>
              split at h
              · exact absurd h (by simp)
              · exact absurd h (by simp)
              · next tH tA heqTH heqTA =>
                  split at h
                  · next hle =>
                      split at h
                      · exact absurd h (by simp)
                      · next w3 oe heqRem =>
                          simp only [Except.ok.injEq, Prod.mk.injEq] at h
                          obtain ⟨-, hmap⟩ := h
                          cases oe with
                          | none => simp at hmap
                          | some e2 =>
                            simp only [Option.map_some', Option.some.injEq] at hmap
                            have hoe := remove_slab_payload _ _ _ _ heqRem
                            have he2 : e2 = e := Option.some.inj (hoe.trans heqGet)
                            refine ⟨w.cur_slab_idx, e, heqGet, ?_, tH, tA, heqTH, heqTA, hle⟩
                            rw [← hmap, he2]
                  · next hle =>
                      split at h <;> (have hres := ih _ w2 d h; exact hres)

/-! ### General claim theorems -/

/-- C9: for every wheel state (the theorem quantifies over all states, in
particular all reachable ones), if every slab entry carrying payload p has a
deadline mapping to a tick strictly after the tick of the instant now, then
a single drain at now never returns p. -/
theorem c9_not_due_not_returned {T : Type} [DecidableEq T] (fuel : Nat)
    (w : TimerWheel T) (now : Nat) (p : T) (hsafe : noneDue w now p = true) :
    ∀ (w2 : TimerWheel T) (r : Option T),
      TimerWheel.poll fuel w now = .ok (w2, r) → r ≠ some p := by
  intro w2 r hp hrp
  subst hrp
  unfold TimerWheel.poll at hp
  split at hp
  · exact absurd hp (by simp)
  · next target heqT =>
      obtain ⟨i, e, hget, hdata, te, ta, hte, hta, hle⟩ :=
        pollLoop_fired now target fuel w w2 p hp
      have hmem := get_mem_entries w.slab i e hget
      unfold noneDue at hsafe
      have hall := List.all_eq_true.mp hsafe (some e) hmem
      simp only [notDueEntry] at hall
      rw [if_pos hdata, hte, hta] at hall
      simp at hall
      omega

/-- Witness for C9: in the concrete state w9, whose only entry carries
payload 7 at deadline 1 s (tick 10), the poll at 100 ms (tick 1) does not
return payload 7. -/
theorem c9_witness :
    ¬ (TimerWheel.poll 10 w9 100000000 = .ok (w9after, some 7)) :=
  fun hp => c9_not_due_not_returned 10 w9 100000000 7 (by decide) w9after (some 7) hp rfl

/-- C10: for every wheel state and every instant now whose tick conversion
succeeds and lands strictly before the current cursor tick, a drain at now
returns an absent result and leaves the whole state unchanged. -/
theorem c10_past_poll_noop (T : Type) (fuel : Nat) (w : TimerWheel T) (now t : Nat)
    (h1 : w.time_to_ticks now = .ok t) (h2 : t < w.cur_wheel_tick) :
    TimerWheel.poll fuel w now = .ok (w, none) := by
  unfold TimerWheel.poll
  rw [h1]
  show TimerWheel.pollLoop now t fuel w = .ok (w, none)
  cases fuel with
  | zero =>
    unfold TimerWheel.pollLoop
    rw [if_pos (show w.cur_wheel_tick > t from h2)]
  | succ k =>
    unfold TimerWheel.pollLoop
    rw [if_pos (show w.cur_wheel_tick > t from h2)]

/-- Witness for C10: polling the concrete state w10 (cursor at tick 5) at
instant 0 (tick 0) returns an absent result and the unchanged state. -/
theorem c10_witness : TimerWheel.poll 0 w10 0 = .ok (w10, none) :=
  c10_past_poll_noop Nat 0 w10 0 0 rfl (by decide)

/-- C5 amended: a successful cancel returns an absent result exactly when
the arena index is vacant or its current occupant was stored with a
different deadline; when it does return a payload, that payload is the one
of the CURRENT occupant whose stored deadline equals the deadline of the
handle - which may be a later unrelated insertion that reused the index
with the same deadline. -/
theorem c5_amended {T : Type} (w : TimerWheel T) (t : Timeout) (w2 : TimerWheel T)
    (r : Option T) (h : w.cancel t = .ok (w2, r)) :
    (r = none ↔ ∀ e, w.slab.get t.slab_idx = some e → e.when ≠ t.when) ∧
    (∀ d, r = some d →
      ∃ e, w.slab.get t.slab_idx = some e ∧ e.when = t.when ∧ e.data = d) := by
  unfold TimerWheel.cancel at h
  split at h
  · next e hg =>
      by_cases he : e.when = t.when
      · rw [if_pos he] at h
        split at h
        · exact absurd h (by simp)
        · next w3 oe hrem =>
            simp only [Except.ok.injEq, Prod.mk.injEq] at h
            obtain ⟨-, hr⟩ := h
            have hoe := remove_slab_payload _ _ _ _ hrem
            rw [hg] at hoe
            subst hoe
            simp only [Option.map_some'] at hr
            refine ⟨⟨fun hrn => ?_, fun hforall => ?_⟩, fun d hd => ?_⟩
            · rw [← hr] at hrn
              exact absurd hrn (by simp)
            · exact absurd he (hforall e hg)
            · rw [← hr] at hd
              exact ⟨e, hg, he, Option.some.inj hd⟩
      · rw [if_neg he] at h
        simp only [Except.ok.injEq, Prod.mk.injEq] at h
        obtain ⟨-, hr⟩ := h
        subst hr
        refine ⟨⟨fun _ => ?_, fun _ => rfl⟩, fun d hd => ?_⟩
        · intro e2 hg2
          rw [hg] at hg2
          rw [← Option.some.inj hg2]
          exact he
        · exact absurd hd (by simp)
  · next hg =>
      simp only [Except.ok.injEq, Prod.mk.injEq] at h
      obtain ⟨-, hr⟩ := h
      subst hr
      refine ⟨⟨fun _ => ?_, fun _ => rfl⟩, fun d hd => ?_⟩
      · intro e2 hg2
        rw [hg] at hg2
        exact absurd hg2 (by simp)
      · exact absurd hd (by simp)

/-- Witness for C5 amended: applied to the second cancel of the C5 trace,
it exhibits the current occupant p2 of the reused index 1, stored at the
same deadline 100 ms as the stale handle. -/
theorem c5_amended_witness :
    ∃ e, s3c5.slab.get 1 = some e ∧ e.when = 100000000 ∧ e.data = "p2" :=
  (c5_amended s3c5 ⟨100000000, 1⟩ s4c5 (some "p2") rfl).2 "p2" rfl

/-- Setting the same position twice keeps the second write. -/
theorem lset_set {α : Type} (l : List α) (i : Nat) (a b : α) :
    (l.set i a).set i b = l.set i b := by
  induction l generalizing i with
  | nil => rfl
  | cons x xs ih =>
    cases i with
    | zero => rfl
    | succ j => simp only [List.set_cons_succ, ih]

/-- Case analysis of the slot cache update of insert: for every slot s,
either the cached timeout is unchanged or it has been set to a value at
least the inserted deadline. -/
theorem insert_cache_cases {T : Type} (w : TimerWheel T)
    (atTime s wheel_idx newIdx actual : Nat) :
    (((if atTime ≤ ((w.wheel.getD wheel_idx ⟨EMPTY, none⟩).next_timeout).getD atTime
        then (w.wheel.set wheel_idx
                ⟨newIdx, (w.wheel.getD wheel_idx ⟨EMPTY, none⟩).next_timeout⟩).set
                wheel_idx ⟨newIdx, some (max actual atTime)⟩
        else w.wheel.set wheel_idx
                ⟨newIdx, (w.wheel.getD wheel_idx ⟨EMPTY, none⟩).next_timeout⟩).getD
      s ⟨EMPTY, none⟩).next_timeout)
      = (w.wheel.getD s ⟨EMPTY, none⟩).next_timeout ∨
    ∃ v, (((if atTime ≤ ((w.wheel.getD wheel_idx ⟨EMPTY, none⟩).next_timeout).getD atTime
        then (w.wheel.set wheel_idx
                ⟨newIdx, (w.wheel.getD wheel_idx ⟨EMPTY, none⟩).next_timeout⟩).set
                wheel_idx ⟨newIdx, some (max actual atTime)⟩
        else w.wheel.set wheel_idx
                ⟨newIdx, (w.wheel.getD wheel_idx ⟨EMPTY, none⟩).next_timeout⟩).getD
      s ⟨EMPTY, none⟩).next_timeout) = some v ∧ atTime ≤ v := by
  by_cases hc : atTime ≤ ((w.wheel.getD wheel_idx ⟨EMPTY, none⟩).next_timeout).getD atTime
  · rw [if_pos hc, lset_set]
    by_cases hs : s = wheel_idx
    · subst hs
      by_cases hlen : s < w.wheel.length
      · rw [lgetD_set_self _ _ _ _ hlen]
        right
        exact ⟨max actual atTime, rfl, Nat.le_max_right _ _⟩
      · rw [lset_oob _ _ _ (by omega)]
        left
        rfl
    · rw [lgetD_set_ne _ _ _ _ _ (fun hh => hs hh.symm)]
      left
      rfl
  · rw [if_neg hc]
    by_cases hs : s = wheel_idx
    · subst hs
      by_cases hlen : s < w.wheel.length
      · rw [lgetD_set_self _ _ _ _ hlen]
        left
        rfl
      · rw [lset_oob _ _ _ (by omega)]
        left
        rfl
    · rw [lgetD_set_ne _ _ _ _ _ (fun hh => hs hh.symm)]
      left
      rfl

/-- C6 amended: removal of an entry (fire or cancel) leaves every cached
slot minimum unchanged, so after removing the minimal entry of a slot the
cache understates (is smaller than) the true minimum of the remaining live
entries; insert, for its part, never sets a cache below the deadline of the
entry being inserted: it either leaves a slot cache unchanged or writes a
value at least that deadline. -/
theorem c6_amended {T : Type} :
    (∀ (w : TimerWheel T) (i : Nat) (w2 : TimerWheel T) (oe : Option (Entry T)),
        w.remove_slab i = .ok (w2, oe) →
        w2.wheel.map Slot.next_timeout = w.wheel.map Slot.next_timeout) ∧
    (∀ (w : TimerWheel T) (atTime : Nat) (d : T) (w2 : TimerWheel T)
        (hdl : Timeout) (s : Nat), w.insert atTime d = .ok (w2, hdl) →
        (w2.wheel.getD s ⟨EMPTY, none⟩).next_timeout
            = (w.wheel.getD s ⟨EMPTY, none⟩).next_timeout ∨
        ∃ v, (w2.wheel.getD s ⟨EMPTY, none⟩).next_timeout = some v ∧ atTime ≤ v) := by
  constructor
  · intro w i w2 oe h
    unfold TimerWheel.remove_slab at h
    split at h
    · simp only [Except.ok.injEq, Prod.mk.injEq] at h
      rw [← h.1]
    · next entry hg =>
        simp only [] at h
        split at h
        · exact absurd h (by simp)
        · next wA hA =>
            split at h
            · exact absurd h (by simp)
            · next wB hB =>
                simp only [Except.ok.injEq, Prod.mk.injEq] at h
                obtain ⟨hw, -⟩ := h
                subst hw
                have e2 := fixNextPtr_wheel wA wB entry hB
                have e1 := unlinkHead_nt _ wA entry hA
                rw [e2, e1]
  · intro w atTime d w2 hdl s h
    unfold TimerWheel.insert at h
    split at h
    · exact absurd h (by simp)
    · next t0 hT0 =>
        simp only [] at h
        by_cases hfull : (w.slab.free.head?).isNone = true
        · rw [if_pos hfull] at h
          split at h
          · exact absurd h (by simp)
          · next newIdx hIdx =>
              split at h
              · exact absurd h (by simp)
              · next slabB hB =>
                  simp only [Except.ok.injEq, Prod.mk.injEq] at h
                  obtain ⟨hw, -⟩ := h
                  subst hw
                  exact insert_cache_cases w atTime s _ _ _
        · rw [if_neg hfull] at h
          split at h
          · exact absurd h (by simp)
          · next newIdx hIdx =>
              split at h
              · exact absurd h (by simp)
              · next slabB hB =>
                  simp only [Except.ok.injEq, Prod.mk.injEq] at h
                  obtain ⟨hw, -⟩ := h
                  subst hw
                  exact insert_cache_cases w atTime s _ _ _

/-- Witness for C6 amended: in the C6 trace, cancelling the minimal entry of
slot 100 leaves all cached slot minimums unchanged, and the first insert
set the cache of slot 100 to a value at least its deadline 10.0 s. -/
theorem c6_amended_witness :
    s3c6.wheel.map Slot.next_timeout = s2c6.wheel.map Slot.next_timeout ∧
    ((s1c6.wheel.getD 100 ⟨EMPTY, none⟩).next_timeout
        = (s0c6.wheel.getD 100 ⟨EMPTY, none⟩).next_timeout ∨
     ∃ v, (s1c6.wheel.getD 100 ⟨EMPTY, none⟩).next_timeout = some v
          ∧ 10000000000 ≤ v) :=
  ⟨(@c6_amended Nat).1 s2c6 1 s3c6 (some ⟨1, 10000000000, 2, EMPTY⟩) rfl,
   (@c6_amended Nat).2 s0c6 10000000000 1 s1c6 ⟨10000000000, 1⟩ 100 rfl⟩

/-- C8 amended: the seconds-to-milliseconds multiplication and the addition
of the submillisecond part are overflow checked and abort with an Overflow
condition, but the final nearest-tick rounding addition of half a tick is
unchecked: when the elapsed milliseconds fit in u64 while their sum with
half a tick does not, the conversion silently wraps modulo 2 ^ 64 and
returns the wrapped tick 0 instead of aborting. -/
theorem c8_amended :
    (∀ start time : Nat, start ≤ time →
      (time - start) / 1000000 < U64 →
      U64 ≤ (time - start) / 1000000 + 50 →
      Timer.time_to_ticks start time = .ok 0) ∧
    (∀ start time : Nat, start ≤ time →
      U64 ≤ (time - start) / 1000000000 * 1000 →
      Timer.time_to_ticks start time = .error .overflow) ∧
    (∀ start time : Nat, start ≤ time →
      (time - start) / 1000000000 * 1000 < U64 →
      U64 ≤ (time - start) / 1000000000 * 1000
            + (time - start) % 1000000000 / 1000000 →
      Timer.time_to_ticks start time = .error .overflow) := by
  refine ⟨fun start time h1 h2 h3 => ?_,
          fun start time h1 h2 => ?_,
          fun start time h1 h2 h3 => ?_⟩
  · have hms := ms_eq (time - start)
    simp only [U64] at h2 h3
    simp only [Timer.time_to_ticks, U64, TICK_MS]
    rw [if_neg (by omega), if_pos (by omega), if_pos (by omega)]
    congr 1
    omega
  · simp only [U64] at h2
    simp only [Timer.time_to_ticks, U64, TICK_MS]
    rw [if_neg (by omega), if_neg (by omega)]
  · simp only [U64] at h2 h3
    simp only [Timer.time_to_ticks, U64, TICK_MS]
    rw [if_neg (by omega), if_pos (by omega), if_neg (by omega)]

/-- Witness for C8 amended: at elapsed 2 ^ 64 - 1 milliseconds the rounding
addition wraps and the conversion answers tick 0; at elapsed 2 ^ 64 seconds
the multiplication check aborts; at elapsed 2 ^ 64 milliseconds the
submillisecond addition check aborts. -/
theorem c8_amended_witness :
    Timer.time_to_ticks 0 18446744073709551615000000 = .ok 0 ∧
    Timer.time_to_ticks 0 (18446744073709551616 * 1000000000) = .error .overflow ∧
    Timer.time_to_ticks 0 18446744073709551616000000 = .error .overflow :=
  ⟨c8_amended.1 0 18446744073709551615000000 (by omega) (by decide) (by decide),
   c8_amended.2.1 0 (18446744073709551616 * 1000000000) (by omega) (by decide),
   c8_amended.2.2 0 18446744073709551616000000 (by omega) (by decide) (by decide)⟩

/-- C3 amended: after a single insert at deadline D into a freshly created
wheel, next_timeout answers some value v with D < v and v at most
D plus one and a half tick widths; in particular v is never smaller than
D minus half a tick, but v can exceed D itself (the original upper bound of
the claim fails). -/
theorem c3_amended {T : Type} (start D : Nat) (x : T)
    (h1 : start ≤ D) (h2 : (D - start) / 1000000 + 50 < U64) :
    ∃ w2 hdl v, (TimerWheel.new start : TimerWheel T).insert D x = .ok (w2, hdl) ∧
      w2.next_timeout = some v ∧ D < v ∧ v ≤ D + 150000000 := by
  have hT := ttt_ok start D h1 h2
  unfold TimerWheel.insert
  rw [show (TimerWheel.new start : TimerWheel T).time_to_ticks D
        = Timer.time_to_ticks start D from rfl]
  simp only [hT]
  simp only [TimerWheel.new]
  set t0 := ((D - start) / 1000000 + 50) / 100 with ht0
  set tk := if t0 ≤ 0 then (0 + 1) % U64 else t0 with htk
  rw [if_neg (show ¬ ((List.range' 1 256).head?.isNone = true) from by decide)]
  simp only [show (List.range' 1 256).head? = some 1 from rfl]
  have hidx : ticks_to_wheel_idx tk < 256 := Nat.mod_lt _ (by norm_num)
  simp only [lgetD_replicate 256 (ticks_to_wheel_idx tk) (⟨EMPTY, none⟩ : Slot)
    ⟨EMPTY, none⟩ hidx]
  simp only [TimerWheel.fixBackPtr]
  rw [if_neg (show ¬ (EMPTY ≠ EMPTY) from by decide)]
  simp only [Option.getD_none]
  rw [if_pos (Nat.le_refl D)]
  refine ⟨_, _, max (start + tk % 4294967296 * 100000000) D + 50000000, rfl, ?_, ?_, ?_⟩
  · unfold TimerWheel.next_timeout
    simp only []
    rw [lset_set, foldl_nt_single 256 (ticks_to_wheel_idx tk) 1
      (max (start + tk % 4294967296 * 100000000) D) hidx]
    rfl
  · have hmax := Nat.le_max_right (start + tk % 4294967296 * 100000000) D
    omega
  · have hbound : start + tk % 4294967296 * 100000000 ≤ D + 100000000 := by
      by_cases ht00 : t0 ≤ 0
      · have htk1 : tk = 1 := by
          rw [htk, if_pos ht00]
          decide
        rw [htk1]
        omega
      · have htk1 : tk = t0 := by rw [htk, if_neg ht00]
        have f1 : tk % 4294967296 ≤ tk := Nat.mod_le _ _
        have f3 : t0 * 100 ≤ (D - start) / 1000000 + 50 :=
          Nat.div_mul_le_self _ 100
        have f4 : (D - start) / 1000000 * 1000000 ≤ D - start :=
          Nat.div_mul_le_self _ _
        omega
    have hmax := Nat.max_le.mpr ⟨hbound, Nat.le_add_right D 100000000⟩
    omega

/-- Witness for C3 amended: inserting payload 7 at deadline 50 ms into a
wheel created at 0 yields a next_timeout value strictly above 50 ms and at
most 200 ms (it is 150 ms, as the counterexample shows). -/
theorem c3_amended_witness :
    ∃ w2 hdl v, (TimerWheel.new 0 : TimerWheel Nat).insert 50000000 7 = .ok (w2, hdl) ∧
      w2.next_timeout = some v ∧ 50000000 < v ∧ v ≤ 50000000 + 150000000 :=
  c3_amended 0 50000000 7 (by decide) (by decide)

end Timer


